import Mathlib

/-!
Shallow embedding of the vote-and-answer consistency core of the H-Forum
backend (`server/models/Question.js`, `server/models/Topic.js`,
`server/routes/questions.js`), with theorems settling the specification
claims about it.

User identifiers (Mongo ObjectIds, compared via `toString()` / `.equals`)
are modelled as `Nat`; timestamps (JS epoch milliseconds) as `Nat`.
-/

namespace HForum

/-- The three vote-type strings accepted by the question vote route
(`'upvote', 'downvote', or 'remove'`, `routes/questions.js` 456). -/
inductive VoteType
  | upvote
  | downvote
  | remove
deriving DecidableEq

/-- The check `['upvote', 'downvote', 'remove'].includes(voteType)`
(`routes/questions.js` 458) on the raw request-body string. -/
def parseVoteType : String → Option VoteType
  | "upvote" => some VoteType.upvote
  | "downvote" => some VoteType.downvote
  | "remove" => some VoteType.remove
  | _ => none

/-- A vote ledger: the `votes: { upvotes: [...], downvotes: [...] }` field of
the question schema and of the nested answer schema (`models/Question.js`
15-24 and 94-103). Mongoose stores arrays; set-ness is behavioural. -/
structure Ledger where
  upvotes : List Nat
  downvotes : List Nat
deriving DecidableEq

/-- Schema default for a vote ledger: both arrays default to `[]`. -/
def emptyLedger : Ledger := { upvotes := [], downvotes := [] }

/-- `questionSchema.methods.vote` (`models/Question.js` 183-198): filter the
user out of both arrays (`id.toString() !== userIdStr`), then push the user
onto the array selected by `voteType`; `'remove'` falls through both
branches and pushes nowhere. -/
def Ledger.vote (l : Ledger) (userId : Nat) (voteType : VoteType) : Ledger :=
  let up := l.upvotes.filter (fun id => id != userId)
  let down := l.downvotes.filter (fun id => id != userId)
  match voteType with
  | VoteType.upvote => { upvotes := up ++ [userId], downvotes := down }
  | VoteType.downvote => { upvotes := up, downvotes := down ++ [userId] }
  | VoteType.remove => { upvotes := up, downvotes := down }

/-- A sequence of `vote` calls against one ledger, in call order. -/
def Ledger.applySeq (l : Ledger) (ops : List (Nat × VoteType)) : Ledger :=
  ops.foldl (fun acc op => acc.vote op.1 op.2) l

/-- One entry of the `viewedBy` log (`models/Question.js` 108-117):
`{ user, viewedAt }`, `viewedAt` defaulting to the time of the push. -/
structure ViewEntry where
  user : Nat
  viewedAt : Nat
deriving DecidableEq

/-- A nested answer subdocument (`models/Question.js` 3-37): content, author,
its own vote ledger, acceptance flag, creation time. The subdocument `_id`
is modelled as `id`. -/
structure Answer where
  id : Nat
  content : String
  author : Nat
  votes : Ledger
  isAccepted : Bool
  createdAt : Nat
deriving DecidableEq

/-- The question aggregate (`models/Question.js` 39-136), restricted to the
fields the vote/answer/view core reads or writes. -/
structure Question where
  id : Nat
  author : Nat
  topics : List Nat
  answers : List Answer
  votes : Ledger
  views : Nat
  viewedBy : List ViewEntry
  isActive : Bool
  lastActivity : Nat
deriving DecidableEq

/-- The 24-hour dedup window in milliseconds (`24 * 60 * 60 * 1000`,
`models/Question.js` 160). -/
def dedupWindowMs : Nat := 24 * 60 * 60 * 1000

/-- `if (this.viewedBy.length > 100) this.viewedBy = this.viewedBy.slice(-100)`
(`models/Question.js` 167-169): keep only the last 100 log entries.
`slice(-100)` is `drop (length - 100)`. -/
def trimTo100 (l : List ViewEntry) : List ViewEntry :=
  if l.length > 100 then l.drop (l.length - 100) else l

/-- `questionSchema.methods.incrementViews` (`models/Question.js` 156-173):
if the user has a log entry younger than 24 hours, do nothing; otherwise
bump `views`, push `{ user, viewedAt: now }`, and trim the log to its last
100 entries via `trimTo100`. `Date.now()` is the `now` argument. JS
`Date.now() - view.viewedAt < window` is also true for a future-dated entry
(negative difference), matched by truncated `Nat` subtraction giving
`0 < window`. -/
def Question.incrementViews (q : Question) (userId : Nat) (now : Nat) : Question :=
  let recentView := q.viewedBy.find? fun v =>
    v.user == userId && decide (now - v.viewedAt < dedupWindowMs)
  match recentView with
  | some _ => q
  | none =>
      let vb := trimTo100 (q.viewedBy ++ [{ user := userId, viewedAt := now }])
      { q with views := q.views + 1, viewedBy := vb }

/-- A sequence of `incrementViews` calls, in call order, each pair giving
the viewing user and the call time. -/
def Question.recordViews (q : Question) (vs : List (Nat × Nat)) : Question :=
  vs.foldl (fun acc v => acc.incrementViews v.1 v.2) q

/-- Responses of the two vote routes, keyed by the branch taken. -/
inductive VoteResp
  /-- 400 `'Invalid vote type'` (`routes/questions.js` 458-463, 555-557). -/
  | invalidVoteType
  /-- 404 question (or answer) not found (467-472, 560-567). -/
  | notFound
  /-- 400 `'Cannot vote on your own question/answer'` (475-480, 570-575);
  the spec's error taxonomy calls this rejection Forbidden. -/
  | selfVote
  /-- 200 with `voteScore` and `userVote` (486-491, 592-596). -/
  | ok (voteScore : Int) (userVote : Option VoteType)
deriving DecidableEq

/-- `POST /api/questions/:id/vote` (`routes/questions.js` 454-500), as a
transform of the stored question (`none` = `findById` misses). Checks, in
code order: vote-type validity, existence and `isActive`, self-vote; only
then mutates the ledger via `Ledger.vote` and saves. The second component
is the stored state after the request. -/
def voteOnQuestion (qOpt : Option Question) (userId : Nat) (voteType : String) :
    VoteResp × Option Question :=
  match parseVoteType voteType with
  | none => (VoteResp.invalidVoteType, qOpt)
  | some t =>
    match qOpt with
    | none => (VoteResp.notFound, none)
    | some q =>
      if q.isActive = false then (VoteResp.notFound, some q)
      else if q.author == userId then (VoteResp.selfVote, some q)
      else
        let q' := { q with votes := q.votes.vote userId t }
        (VoteResp.ok ((q'.votes.upvotes.length : Int) - (q'.votes.downvotes.length : Int))
          (if t == VoteType.remove then none else some t), some q')

/-- The inline answer-ledger mutation of the answer vote route
(`routes/questions.js` 577-586): filter the user out of both arrays
(`!id.equals(userId)`), then push onto `upvotes` when the string is
`'upvote'`, otherwise onto `downvotes`. Reached only for strings the route
admits (`'upvote'` or `'downvote'`). -/
def answerLedgerVote (l : Ledger) (userId : Nat) (voteType : String) : Ledger :=
  let up := l.upvotes.filter (fun id => id != userId)
  let down := l.downvotes.filter (fun id => id != userId)
  if voteType == "upvote" then { upvotes := up ++ [userId], downvotes := down }
  else { upvotes := up, downvotes := down ++ [userId] }

/-- `question.answers.id(answerId)` mutation in place: rewrite the first
answer with the given id, leave the rest unchanged. -/
def updateAnswer : List Answer → Nat → (Answer → Answer) → List Answer
  | [], _, _ => []
  | a :: rest, answerId, f =>
    if a.id == answerId then f a :: rest else a :: updateAnswer rest answerId f

/-- `POST /api/questions/:id/answers/:answerId/vote`
(`routes/questions.js` 548-601). Checks, in code order: the vote-type
string against `['upvote', 'downvote']` (no `'remove'`), question existence
(`isActive` is NOT checked), answer lookup, self-vote; then applies the
inline ledger mutation to the located answer and saves. -/
def voteOnAnswer (qOpt : Option Question) (answerId : Nat) (userId : Nat)
    (voteType : String) : VoteResp × Option Question :=
  if voteType != "upvote" && voteType != "downvote" then
    (VoteResp.invalidVoteType, qOpt)
  else
    match qOpt with
    | none => (VoteResp.notFound, none)
    | some q =>
      match q.answers.find? (fun a => a.id == answerId) with
      | none => (VoteResp.notFound, some q)
      | some ans =>
        if ans.author == userId then (VoteResp.selfVote, some q)
        else
          let newVotes := answerLedgerVote ans.votes userId voteType
          let q' := { q with
            answers := updateAnswer q.answers answerId fun a => { a with votes := newVotes } }
          (VoteResp.ok
            ((newVotes.upvotes.length : Int) - (newVotes.downvotes.length : Int))
            (if voteType == "upvote" then some VoteType.upvote else some VoteType.downvote),
           some q')

/-- JS `String.prototype.trim()`: strip leading and trailing whitespace
(used by the answer route on the request body's `content`). -/
def jsTrim (s : String) : String :=
  { data := ((s.data.dropWhile Char.isWhitespace).reverse.dropWhile
      Char.isWhitespace).reverse }

/-- Responses of `POST /api/questions/:id/answers`. -/
inductive AnswerResp
  /-- 400 `'Answer content is required'` (`routes/questions.js` 511-513). -/
  | invalidInput
  /-- 404 `'Question not found'` (516-518). -/
  | notFound
  /-- 500: `question.save()` threw, in particular the answerSchema
  `minlength: 10` validation on answer content (`models/Question.js` 8). -/
  | serverError
  /-- 201 with the appended answer (535-538). -/
  | created (answer : Answer)
deriving DecidableEq

/-- `POST /api/questions/:id/answers` (`routes/questions.js` 505-543).
Rejects empty trimmed content, then 404 only on a `findById` miss
(`isActive` is NOT checked), then pushes the new answer and saves. The
route passes `votes: 0`; the mongoose cast finds neither `votes.upvotes`
nor `votes.downvotes` in the number `0`, so both arrays take the schema
default `[]`. `save()` runs the answerSchema validators (content
`minlength: 10` over every answer subdocument), a failure being caught as
500; and the `pre('save')` hook (`models/Question.js` 201-206) sets
`lastActivity` because `answers` was modified. `newAnswerId` is the fresh
subdocument `_id`. -/
def addAnswer (qOpt : Option Question) (userId : Nat) (content : String)
    (newAnswerId : Nat) (now : Nat) : AnswerResp × Option Question :=
  if (jsTrim content).length == 0 then (AnswerResp.invalidInput, qOpt)
  else
    match qOpt with
    | none => (AnswerResp.notFound, none)
    | some q =>
      let newAnswer : Answer :=
        { id := newAnswerId, content := jsTrim content, author := userId,
          votes := emptyLedger, isAccepted := false, createdAt := now }
      let q' := { q with answers := q.answers ++ [newAnswer], lastActivity := now }
      if q'.answers.all (fun a => decide (10 ≤ a.content.length)) then
        (AnswerResp.created newAnswer, some q')
      else (AnswerResp.serverError, some q)

/-- The topic fields touched by the counter claims (`models/Topic.js`
37-44). Counters are `Number` paths, mutable to any integer by `$inc`. -/
structure Topic where
  id : Nat
  questionCount : Int
  followerCount : Int
deriving DecidableEq

/-- `topicSchema.methods.decrementQuestionCount` (`models/Topic.js` 89-92):
`Math.max(0, this.questionCount - 1)`. -/
def Topic.decrementQuestionCount (t : Topic) : Topic :=
  { t with questionCount := max 0 (t.questionCount - 1) }

/-- Responses of `DELETE /api/questions/:id`. -/
inductive DeleteResp
  /-- 404 (`routes/questions.js` 405-410). -/
  | notFound
  /-- 403 not author and not admin (413-418). -/
  | notAuthorized
  /-- 200 `'Question deleted successfully'` (437-440). -/
  | ok
deriving DecidableEq

/-- `DELETE /api/questions/:id` (`routes/questions.js` 401-449). Checks only
existence (`!question`), never `isActive`; after the ownership check it
sets `isActive = false`, then applies raw `$inc: { questionsAsked: -1 }` to
the author and raw `$inc: { questionCount: -1 }` to every referenced topic
(when the question has topics) — not the clamped
`Topic.decrementQuestionCount`. Returns the response, the stored question,
the author's `questionsAsked`, and the topic list after the request. -/
def deleteQuestion (qOpt : Option Question) (userId : Nat) (role : String)
    (questionsAsked : Int) (topics : List Topic) :
    DeleteResp × Option Question × Int × List Topic :=
  match qOpt with
  | none => (DeleteResp.notFound, none, questionsAsked, topics)
  | some q =>
    if q.author != userId && role != "admin" then
      (DeleteResp.notAuthorized, some q, questionsAsked, topics)
    else
      let q' := { q with isActive := false }
      let topics' :=
        if q.topics.length > 0 then
          topics.map fun t =>
            if q.topics.contains t.id then { t with questionCount := t.questionCount - 1 }
            else t
        else topics
      (DeleteResp.ok, some q', questionsAsked - 1, topics')

/-- Fixture: an answer by user 2 whose ledger holds an upvote by user 3. -/
def ansFix : Answer :=
  { id := 10, content := "A perfectly valid answer body", author := 2,
    votes := { upvotes := [3], downvotes := [] }, isAccepted := false, createdAt := 0 }

/-- Fixture: an active question by user 2 carrying `ansFix` and topic 5. -/
def qFix : Question :=
  { id := 7, author := 2, topics := [5], answers := [ansFix], votes := emptyLedger,
    views := 0, viewedBy := [], isActive := true, lastActivity := 0 }

/-- Fixture: `qFix` after a soft delete (`isActive = false`). -/
def qInactive : Question := { qFix with isActive := false }

/-- Fixture: topic 5 with one question counted. -/
def tFix : Topic := { id := 5, questionCount := 1, followerCount := 0 }

/-- Fixture: 101 views by the distinct users `0..100`, spaced one dedup
window apart. -/
def vs101 : List (Nat × Nat) := (List.range 101).map fun i => (i, i * dedupWindowMs)

end HForum

namespace HForum

section VoteLemmas

lemma mem_filter_ne {xs : List Nat} {v u : Nat} :
    v ∈ xs.filter (fun id => id != u) ↔ v ∈ xs ∧ v ≠ u := by
  simp [List.mem_filter]

lemma self_not_mem_filter (xs : List Nat) (u : Nat) :
    u ∉ xs.filter (fun id => id != u) := by
  simp [mem_filter_ne]

/-- Single-state invariant of a ledger: no user is in both arrays. -/
def Ledger.singleState (l : Ledger) : Prop :=
  ∀ u : Nat, ¬ (u ∈ l.upvotes ∧ u ∈ l.downvotes)

lemma singleState_vote {l : Ledger} (h : l.singleState) (v : Nat) (t : VoteType) :
    (l.vote v t).singleState := by
  intro u hu
  rcases hu with ⟨hup, hdown⟩
  by_cases huv : u = v
  · subst huv
    cases t <;>
      simp only [Ledger.vote, List.mem_append, mem_filter_ne, List.mem_singleton] at hup hdown <;>
      tauto
  · cases t <;>
      simp only [Ledger.vote, List.mem_append, mem_filter_ne, List.mem_singleton] at hup hdown <;>
      exact absurd ⟨(by tauto), (by tauto)⟩ (h u)

lemma singleState_applySeq {l : Ledger} (h : l.singleState)
    (ops : List (Nat × VoteType)) : (l.applySeq ops).singleState := by
  induction ops generalizing l with
  | nil => exact h
  | cons op rest ih => exact ih (singleState_vote h op.1 op.2)

end VoteLemmas

/-- C1: applying the vote primitive removes the user from both arrays and
then inserts them only into the array selected by the vote type; `remove`
leaves the user in neither. Both the question-level and the answer-level
ledgers are values of the same `Ledger` type, so this covers both. -/
theorem vote_membership (l : Ledger) (u : Nat) (t : VoteType) :
    (u ∈ (l.vote u t).upvotes ↔ t = VoteType.upvote) ∧
    (u ∈ (l.vote u t).downvotes ↔ t = VoteType.downvote) := by
  cases t <;>
    simp [Ledger.vote, List.mem_append, mem_filter_ne]

/-- C2: starting from the schema-default empty ledger, any sequence of vote
operations leaves every user in at most one of the two arrays; and after
upvote-then-downvote by the same user, that user is in downvotes only. -/
theorem vote_single_state_invariant (ops : List (Nat × VoteType)) (l : Ledger) (u : Nat) :
    (∀ v : Nat, ¬ (v ∈ (emptyLedger.applySeq ops).upvotes ∧
                   v ∈ (emptyLedger.applySeq ops).downvotes)) ∧
    (u ∈ ((l.vote u VoteType.upvote).vote u VoteType.downvote).downvotes ∧
     u ∉ ((l.vote u VoteType.upvote).vote u VoteType.downvote).upvotes) := by
  constructor
  · exact singleState_applySeq (by intro v hv; simp [emptyLedger] at hv) ops
  · constructor
    · simp [Ledger.vote, List.mem_append]
    · simp [Ledger.vote, List.mem_append, mem_filter_ne]

/-- C3: voting is idempotent: applying the same vote type twice by the same
user yields exactly the ledger produced by a single application. -/
theorem vote_idempotent (l : Ledger) (u : Nat) (t : VoteType) :
    (l.vote u t).vote u t = l.vote u t := by
  have hfilter : ∀ xs : List Nat,
      (xs.filter (fun id => id != u)).filter (fun id => id != u) =
        xs.filter (fun id => id != u) := by
    intro xs
    rw [List.filter_filter]
    congr 1
    funext a
    exact Bool.and_self (a != u)
  have hself : ∀ xs : List Nat,
      (xs.filter (fun id => id != u) ++ [u]).filter (fun id => id != u) =
        xs.filter (fun id => id != u) := by
    intro xs
    rw [List.filter_append, hfilter]
    simp
  cases t <;> simp [Ledger.vote, hfilter, hself]

/-- C4: the question vote route rejects an unknown vote type and rejects a
self-vote by the question's author, and in both cases the stored question
(hence its vote ledger) is returned unchanged. -/
theorem voteOnQuestion_rejections (q : Question) (u : Nat) (s : String) :
    (parseVoteType s = none →
      voteOnQuestion (some q) u s = (VoteResp.invalidVoteType, some q)) ∧
    ((parseVoteType s).isSome → q.isActive = true → q.author = u →
      voteOnQuestion (some q) u s = (VoteResp.selfVote, some q)) := by
  constructor
  · intro h
    simp [voteOnQuestion, h]
  · intro hsome hact hauth
    cases hp : parseVoteType s with
    | none => rw [hp] at hsome; simp at hsome
    | some t => simp [voteOnQuestion, hp, hact, hauth]

/-- Witness for C4 at a concrete question: a garbage vote type and an
author self-upvote are both rejected with the state unchanged. -/
theorem voteOnQuestion_rejections_witness :
    voteOnQuestion (some qFix) 1 "sideways" = (VoteResp.invalidVoteType, some qFix) ∧
    voteOnQuestion (some qFix) 2 "upvote" = (VoteResp.selfVote, some qFix) :=
  ⟨(voteOnQuestion_rejections qFix 1 "sideways").1 rfl,
   (voteOnQuestion_rejections qFix 2 "upvote").2 (by decide) rfl rfl⟩

/-- C5 counterexample: the answer vote route does NOT accept `'remove'`: at
a concrete question whose answer holds an upvote by user 3, user 3's
`'remove'` request is rejected as an invalid vote type and the stored
state — with user 3 still present in the answer's upvotes — is unchanged. -/
theorem voteOnAnswer_remove_rejected :
    voteOnAnswer (some qFix) 10 3 "remove" = (VoteResp.invalidVoteType, some qFix) ∧
    3 ∈ ansFix.votes.upvotes := by
  constructor
  · rfl
  · decide

lemma voteOnAnswer_upDown_eq (q : Question) (ans : Answer)
    (aid u : Nat) (s : String) (t : VoteType)
    (hfind : q.answers.find? (fun a => a.id == aid) = some ans)
    (hauth : ans.author ≠ u)
    (hs : (s = "upvote" ∧ t = VoteType.upvote) ∨ (s = "downvote" ∧ t = VoteType.downvote)) :
    voteOnAnswer (some q) aid u s =
      (VoteResp.ok (((ans.votes.vote u t).upvotes.length : Int) -
          ((ans.votes.vote u t).downvotes.length : Int)) (some t),
       some { q with answers :=
          (updateAnswer q.answers aid
            (fun a => { a with votes := ans.votes.vote u t })) }) := by
  have hbeq : (ans.author == u) = false := by
    simp [hauth]
  rcases hs with ⟨hs, ht⟩ | ⟨hs, ht⟩ <;> subst hs <;> subst ht <;>
    simp [voteOnAnswer, hfind, hbeq, answerLedgerVote, Ledger.vote]

/-- C5 amended: the answer vote route accepts only `'upvote'` and
`'downvote'`; for those, a non-author voter on an existing answer gets the
same ledger primitive (`Ledger.vote`) applied to the answer's own ledger,
while `'remove'` is rejected as invalid input with the state unchanged. -/
theorem voteOnAnswer_accepted_semantics (q : Question) (ans : Answer)
    (aid u : Nat) (s : String) (t : VoteType)
    (hfind : q.answers.find? (fun a => a.id == aid) = some ans)
    (hauth : ans.author ≠ u)
    (hs : (s = "upvote" ∧ t = VoteType.upvote) ∨ (s = "downvote" ∧ t = VoteType.downvote)) :
    voteOnAnswer (some q) aid u s =
      (VoteResp.ok (((ans.votes.vote u t).upvotes.length : Int) -
          ((ans.votes.vote u t).downvotes.length : Int)) (some t),
       some { q with answers :=
          (updateAnswer q.answers aid
            (fun a => { a with votes := ans.votes.vote u t })) }) ∧
    voteOnAnswer (some q) aid u "remove" = (VoteResp.invalidVoteType, some q) :=
  ⟨voteOnAnswer_upDown_eq q ans aid u s t hfind hauth hs, rfl⟩

/-- Witness for C5's amended claim at a concrete question: user 1 upvoting
answer 10 succeeds via the shared primitive; user 1's `'remove'` is
rejected unchanged. -/
theorem voteOnAnswer_accepted_semantics_witness :
    voteOnAnswer (some qFix) 10 1 "upvote" =
      (VoteResp.ok (((ansFix.votes.vote 1 VoteType.upvote).upvotes.length : Int) -
          ((ansFix.votes.vote 1 VoteType.upvote).downvotes.length : Int))
        (some VoteType.upvote),
       some { qFix with answers :=
          (updateAnswer qFix.answers 10
            (fun a => { a with votes := ansFix.votes.vote 1 VoteType.upvote })) }) ∧
    voteOnAnswer (some qFix) 10 1 "remove" = (VoteResp.invalidVoteType, some qFix) :=
  voteOnAnswer_accepted_semantics qFix ansFix 10 1 "upvote" VoteType.upvote
    (by decide) (by decide) (Or.inl ⟨rfl, rfl⟩)

lemma addAnswer_valid_eq (q : Question) (u : Nat) (content : String) (aid now : Nat)
    (hc : 10 ≤ (jsTrim content).length)
    (hvalid : ∀ a ∈ q.answers, 10 ≤ a.content.length) :
    addAnswer (some q) u content aid now =
      (AnswerResp.created
        { id := aid, content := jsTrim content, author := u,
          votes := emptyLedger, isAccepted := false, createdAt := now },
       some { q with
          answers := (q.answers ++
            [{ id := aid, content := jsTrim content, author := u,
               votes := emptyLedger, isAccepted := false, createdAt := now }]),
          lastActivity := now }) := by
  have hne : ((jsTrim content).length == 0) = false := by
    simp
    omega
  simp [addAnswer, hne, List.all_eq_true]
  exact ⟨hvalid, hc⟩

/-- C8: adding an answer with valid content appends exactly one answer with
an empty vote ledger, `isAccepted = false` and `createdAt = now`, and the
save hook refreshes the parent's `lastActivity` to `now`, which is at least
its previous value. -/
theorem addAnswer_appends (q : Question) (u : Nat) (content : String) (aid now : Nat)
    (hc : 10 ≤ (jsTrim content).length)
    (hvalid : ∀ a ∈ q.answers, 10 ≤ a.content.length)
    (hla : q.lastActivity ≤ now) :
    addAnswer (some q) u content aid now =
      (AnswerResp.created
        { id := aid, content := jsTrim content, author := u,
          votes := emptyLedger, isAccepted := false, createdAt := now },
       some { q with
          answers := (q.answers ++
            [{ id := aid, content := jsTrim content, author := u,
               votes := emptyLedger, isAccepted := false, createdAt := now }]),
          lastActivity := now }) ∧
    q.lastActivity ≤ now :=
  ⟨addAnswer_valid_eq q u content aid now hc hvalid, hla⟩

/-- Witness for C8: adding the spec's example body `"This is a valid answer
body"` to the fixture question appends exactly that one answer. -/
theorem addAnswer_appends_witness :
    addAnswer (some qFix) 3 "This is a valid answer body" 11 5 =
      (AnswerResp.created
        { id := 11, content := jsTrim "This is a valid answer body", author := 3,
          votes := emptyLedger, isAccepted := false, createdAt := 5 },
       some { qFix with
          answers := (qFix.answers ++
            [{ id := 11, content := jsTrim "This is a valid answer body", author := 3,
               votes := emptyLedger, isAccepted := false, createdAt := 5 }]),
          lastActivity := 5 }) ∧
    qFix.lastActivity ≤ 5 :=
  addAnswer_appends qFix 3 "This is a valid answer body" 11 5 (by decide)
    (by decide) (by decide)

/-- C9 (code-bug evidence): the question's author deletes `qFix` once —
topic 5's `questionCount` drops from 1 to 0 and the question is soft
deleted — then, the route never checking `isActive`, deletes it again, and
the raw `$inc` pushes the count to -1; the model's own
`Topic.decrementQuestionCount` would have clamped it at 0. -/
theorem deleteQuestion_topic_count_goes_negative :
    (deleteQuestion (some qFix) 2 "user" 1 [tFix]).1 = DeleteResp.ok ∧
    (deleteQuestion (some qFix) 2 "user" 1 [tFix]).2.1 = some qInactive ∧
    (deleteQuestion (some qFix) 2 "user" 1 [tFix]).2.2.2 =
      [{ id := 5, questionCount := 0, followerCount := 0 }] ∧
    (deleteQuestion (some qInactive) 2 "user" 0
        [{ id := 5, questionCount := 0, followerCount := 0 }]).1 = DeleteResp.ok ∧
    (deleteQuestion (some qInactive) 2 "user" 0
        [{ id := 5, questionCount := 0, followerCount := 0 }]).2.2.2 =
      [{ id := 5, questionCount := -1, followerCount := 0 }] ∧
    (Topic.decrementQuestionCount
        { id := 5, questionCount := 0, followerCount := 0 }).questionCount = 0 := by
  refine ⟨rfl, by decide, by decide, rfl, by decide, by decide⟩

/-- C10: a soft-deleted question (`isActive = false`) is still mutable:
deletion by its author succeeds again and re-runs the `questionsAsked`
decrement, adding a valid answer succeeds, and voting on one of its
answers succeeds — none of these handlers checks `isActive`. -/
theorem softDeleted_still_mutable (q : Question) (u v aid : Nat) (ans : Answer)
    (qa : Int) (ts : List Topic) (content : String) (naid now : Nat)
    (hinactive : q.isActive = false)
    (hauthor : q.author = u)
    (hfind : q.answers.find? (fun a => a.id == aid) = some ans)
    (hansauthor : ans.author ≠ v)
    (hc : 10 ≤ (jsTrim content).length)
    (hvalid : ∀ a ∈ q.answers, 10 ≤ a.content.length) :
    (deleteQuestion (some q) u "user" qa ts).1 = DeleteResp.ok ∧
    (deleteQuestion (some q) u "user" qa ts).2.2.1 = qa - 1 ∧
    (addAnswer (some q) v content naid now).1 =
      AnswerResp.created
        { id := naid, content := jsTrim content, author := v,
          votes := emptyLedger, isAccepted := false, createdAt := now } ∧
    (voteOnAnswer (some q) aid v "upvote").1 =
      VoteResp.ok (((ans.votes.vote v VoteType.upvote).upvotes.length : Int) -
        ((ans.votes.vote v VoteType.upvote).downvotes.length : Int))
        (some VoteType.upvote) := by
  refine ⟨?_, ?_, ?_, ?_⟩
  · simp [deleteQuestion, hauthor]
  · simp [deleteQuestion, hauthor]
  · rw [addAnswer_valid_eq q v content naid now hc hvalid]
  · rw [voteOnAnswer_upDown_eq q ans aid v "upvote" VoteType.upvote hfind hansauthor
      (Or.inl ⟨rfl, rfl⟩)]

/-- Witness for C10: the soft-deleted fixture question still accepts a
re-delete, a new answer, and an answer vote. -/
theorem softDeleted_still_mutable_witness :
    (deleteQuestion (some qInactive) 2 "user" 0 [tFix]).1 = DeleteResp.ok ∧
    (deleteQuestion (some qInactive) 2 "user" 0 [tFix]).2.2.1 = 0 - 1 ∧
    (addAnswer (some qInactive) 3 "This is a valid answer body" 11 5).1 =
      AnswerResp.created
        { id := 11, content := jsTrim "This is a valid answer body", author := 3,
          votes := emptyLedger, isAccepted := false, createdAt := 5 } ∧
    (voteOnAnswer (some qInactive) 10 3 "upvote").1 =
      VoteResp.ok (((ansFix.votes.vote 3 VoteType.upvote).upvotes.length : Int) -
        ((ansFix.votes.vote 3 VoteType.upvote).downvotes.length : Int))
        (some VoteType.upvote) :=
  softDeleted_still_mutable qInactive 2 3 10 ansFix 0 [tFix]
    "This is a valid answer body" 11 5 (by decide) (by decide) (by decide)
    (by decide) (by decide) (by decide)

section ViewLemmas

lemma trimTo100_eq_drop (l : List ViewEntry) :
    trimTo100 l = l.drop (l.length - 100) := by
  unfold trimTo100
  split
  · rfl
  · next h =>
      have : l.length - 100 = 0 := by omega
      rw [this, List.drop_zero]

lemma trimTo100_of_le (l : List ViewEntry) (h : l.length ≤ 100) :
    trimTo100 l = l := by
  rw [trimTo100_eq_drop]
  have : l.length - 100 = 0 := by omega
  rw [this, List.drop_zero]

lemma trimTo100_length_le (l : List ViewEntry) : (trimTo100 l).length ≤ 100 := by
  rw [trimTo100_eq_drop, List.length_drop]
  omega

lemma trimTo100_subset (l : List ViewEntry) : trimTo100 l ⊆ l := by
  rw [trimTo100_eq_drop]
  exact List.drop_subset _ _

lemma trimTo100_eq_reverse_take (l : List ViewEntry) :
    trimTo100 l = (l.reverse.take 100).reverse := by
  rw [trimTo100_eq_drop]
  have h := (List.reverse_drop (l := l) (n := l.length - 100)).symm
  have hlen : l.length - (l.length - 100) = min 100 l.length := by omega
  rw [hlen] at h
  rcases le_total 100 l.length with hc | hc
  · rw [min_eq_left hc] at h
    calc l.drop (l.length - 100)
        = (l.drop (l.length - 100)).reverse.reverse := (List.reverse_reverse _).symm
      _ = (l.reverse.take 100).reverse := by rw [List.reverse_drop, hlen, min_eq_left hc]
  · have htk : l.reverse.take 100 = l.reverse :=
      List.take_of_length_le (by simpa using hc)
    rw [htk, List.reverse_reverse]
    have : l.length - 100 = 0 := by omega
    rw [this, List.drop_zero]

lemma take_append_take (a b : List ViewEntry) (n : Nat) :
    (a ++ b.take n).take n = (a ++ b).take n := by
  rw [List.take_append_eq_append_take, List.take_append_eq_append_take,
    List.take_take, min_eq_left (Nat.sub_le n a.length)]

lemma trimTo100_append_trimTo100 (l ys : List ViewEntry) :
    trimTo100 (trimTo100 l ++ ys) = trimTo100 (l ++ ys) := by
  rw [trimTo100_eq_reverse_take, trimTo100_eq_reverse_take (l ++ ys)]
  congr 1
  rw [List.reverse_append, List.reverse_append]
  have hrev : (trimTo100 l).reverse = l.reverse.take 100 := by
    rw [trimTo100_eq_reverse_take, List.reverse_reverse]
  rw [hrev, take_append_take]

lemma incrementViews_of_recent (p : Question) (u now : Nat)
    (h : ∃ e ∈ p.viewedBy, e.user = u ∧ now - e.viewedAt < dedupWindowMs) :
    p.incrementViews u now = p := by
  obtain ⟨e, he, hu, ht⟩ := h
  have hsome : (p.viewedBy.find? fun v =>
      v.user == u && decide (now - v.viewedAt < dedupWindowMs)).isSome := by
    refine List.find?_isSome.mpr ⟨e, he, ?_⟩
    simp [hu, ht]
  obtain ⟨e', he'⟩ := Option.isSome_iff_exists.mp hsome
  simp [Question.incrementViews, he']

lemma incrementViews_of_fresh (p : Question) (u now : Nat)
    (h : ∀ e ∈ p.viewedBy, e.user = u → ¬ (now - e.viewedAt < dedupWindowMs)) :
    p.incrementViews u now =
      { p with
        views := p.views + 1
        viewedBy := trimTo100 (p.viewedBy ++ [{ user := u, viewedAt := now }]) } := by
  have hfind : (p.viewedBy.find? fun v =>
      v.user == u && decide (now - v.viewedAt < dedupWindowMs)) = none := by
    refine List.find?_eq_none.mpr fun e he => ?_
    by_cases hu : e.user = u
    · simp [hu, h e he hu]
    · simp [hu]
  simp [Question.incrementViews, hfind]

lemma mem_append_self_trimTo100 (xs : List ViewEntry) (e : ViewEntry) :
    e ∈ trimTo100 (xs ++ [e]) := by
  rw [trimTo100_eq_drop]
  have hle : (xs ++ [e]).length - 100 ≤ xs.length := by
    simp [List.length_append]
  rw [List.drop_append_of_le_length hle]
  simp

end ViewLemmas

/-- C6: a view by a user with a log entry younger than 24 hours changes
nothing; two views by the same user within one 24-hour window increment the
counter exactly once, and a third view after the window has elapsed
increments it a second time. -/
theorem recordView_dedup (q : Question) (u t1 t2 t3 : Nat)
    (hold : ∀ e ∈ q.viewedBy, e.user = u → e.viewedAt + dedupWindowMs ≤ t1)
    (h12 : t1 ≤ t2) (h2 : t2 < t1 + dedupWindowMs)
    (h3 : t1 + dedupWindowMs ≤ t3) :
    (∀ (p : Question) (now : Nat),
        (∃ e ∈ p.viewedBy, e.user = u ∧ now - e.viewedAt < dedupWindowMs) →
        p.incrementViews u now = p) ∧
    (q.incrementViews u t1).views = q.views + 1 ∧
    (q.incrementViews u t1).incrementViews u t2 = q.incrementViews u t1 ∧
    (((q.incrementViews u t1).incrementViews u t2).incrementViews u t3).views =
      q.views + 2 := by
  have hwin : dedupWindowMs = 86400000 := rfl
  have hfresh1 : ∀ e ∈ q.viewedBy, e.user = u → ¬ (t1 - e.viewedAt < dedupWindowMs) := by
    intro e he hu
    have := hold e he hu
    omega
  have hq1 := incrementViews_of_fresh q u t1 hfresh1
  have hmem1 : ({ user := u, viewedAt := t1 } : ViewEntry) ∈
      (q.incrementViews u t1).viewedBy := by
    rw [hq1]
    exact mem_append_self_trimTo100 q.viewedBy _
  have hstep2 : (q.incrementViews u t1).incrementViews u t2 = q.incrementViews u t1 :=
    incrementViews_of_recent _ u t2
      ⟨{ user := u, viewedAt := t1 }, hmem1, rfl,
        by show t2 - t1 < dedupWindowMs; omega⟩
  refine ⟨fun p now h => incrementViews_of_recent p u now h, ?_, hstep2, ?_⟩
  · rw [hq1]
  · rw [hstep2]
    have hfresh3 : ∀ e ∈ (q.incrementViews u t1).viewedBy,
        e.user = u → ¬ (t3 - e.viewedAt < dedupWindowMs) := by
      intro e he hu
      rw [hq1] at he
      have he' := trimTo100_subset _ he
      rcases List.mem_append.mp he' with hq' | hnew
      · have := hold e hq' hu
        omega
      · simp only [List.mem_singleton] at hnew
        subst hnew
        show ¬ (t3 - t1 < dedupWindowMs)
        omega
    rw [incrementViews_of_fresh _ u t3 hfresh3, hq1]

/-- Witness for C6 at the fixture question (empty view log): views go from
0 to 1 after the first two calls and to 2 after the third. -/
theorem recordView_dedup_witness :
    (∀ (p : Question) (now : Nat),
        (∃ e ∈ p.viewedBy, e.user = 1 ∧ now - e.viewedAt < dedupWindowMs) →
        p.incrementViews 1 now = p) ∧
    (qFix.incrementViews 1 0).views = qFix.views + 1 ∧
    (qFix.incrementViews 1 0).incrementViews 1 1 = qFix.incrementViews 1 0 ∧
    (((qFix.incrementViews 1 0).incrementViews 1 1).incrementViews 1 dedupWindowMs).views =
      qFix.views + 2 :=
  recordView_dedup qFix 1 0 1 dedupWindowMs (by decide) (by decide) (by decide)
    (by decide)

lemma recordViews_fresh_eq (vs : List (Nat × Nat)) (q : Question)
    (hlen : q.viewedBy.length ≤ 100)
    (hnodup : (vs.map Prod.fst).Nodup)
    (hfresh : ∀ p ∈ vs, ∀ e ∈ q.viewedBy, e.user ≠ p.1) :
    (q.recordViews vs).viewedBy =
      trimTo100 (q.viewedBy ++ vs.map fun p => { user := p.1, viewedAt := p.2 }) ∧
    (q.recordViews vs).views = q.views + vs.length := by
  induction vs generalizing q with
  | nil =>
      simp [Question.recordViews, trimTo100_of_le _ hlen]
  | cons pv rest ih =>
      have hfresh1 : ∀ e ∈ q.viewedBy, e.user = pv.1 →
          ¬ (pv.2 - e.viewedAt < dedupWindowMs) := by
        intro e he hu
        exact absurd hu (hfresh pv (List.mem_cons_self pv rest) e he)
      have hq1 := incrementViews_of_fresh q pv.1 pv.2 hfresh1
      have hunfold : Question.recordViews q (pv :: rest) =
          Question.recordViews (q.incrementViews pv.1 pv.2) rest := rfl
      have hnodup' : (rest.map Prod.fst).Nodup := (List.nodup_cons.mp hnodup).2
      have hpv_notin : pv.1 ∉ rest.map Prod.fst := (List.nodup_cons.mp hnodup).1
      have hfresh' : ∀ p ∈ rest, ∀ e ∈ (q.incrementViews pv.1 pv.2).viewedBy,
          e.user ≠ p.1 := by
        intro p hp e he
        rw [hq1] at he
        have he' := trimTo100_subset _ he
        rcases List.mem_append.mp he' with hq' | hnew
        · exact hfresh p (List.mem_cons_of_mem pv hp) e hq'
        · simp only [List.mem_singleton] at hnew
          subst hnew
          intro hcontr
          have hpe : pv.1 = p.1 := hcontr
          rw [hpe] at hpv_notin
          exact hpv_notin (List.mem_map_of_mem Prod.fst hp)
      have hlen' : (q.incrementViews pv.1 pv.2).viewedBy.length ≤ 100 := by
        rw [hq1]
        exact trimTo100_length_le _
      obtain ⟨ih1, ih2⟩ := ih (q.incrementViews pv.1 pv.2) hlen' hnodup' hfresh'
      constructor
      · rw [hunfold, ih1, hq1]
        simp only [List.map_cons]
        rw [trimTo100_append_trimTo100, List.append_assoc, List.singleton_append]
      · rw [hunfold, ih2, hq1]
        simp only [List.length_cons]
        omega

/-- C7: 101 views by distinct users on a question with an empty view log
leave exactly the 100 most recent log entries in call order — the oldest
entry is evicted — while the counter records all 101 views. -/
theorem viewLog_eviction (q : Question) (vs : List (Nat × Nat))
    (hq : q.viewedBy = [])
    (hnodup : (vs.map Prod.fst).Nodup)
    (hlen : vs.length = 101) :
    (q.recordViews vs).viewedBy =
      (vs.map fun p => ({ user := p.1, viewedAt := p.2 } : ViewEntry)).drop 1 ∧
    (q.recordViews vs).views = q.views + 101 := by
  have hfresh : ∀ p ∈ vs, ∀ e ∈ q.viewedBy, e.user ≠ p.1 := by
    simp [hq]
  obtain ⟨h1, h2⟩ := recordViews_fresh_eq vs q (by simp [hq]) hnodup hfresh
  constructor
  · rw [h1, hq, List.nil_append, trimTo100_eq_drop]
    congr 1
    simp [hlen]
  · rw [h2, hlen]

/-- Witness for C7: the fixture question and 101 distinct viewers `0..100`
leave the log entries of viewers `1..100` and a view count of 101. -/
theorem viewLog_eviction_witness :
    (qFix.recordViews vs101).viewedBy =
      (vs101.map fun p => ({ user := p.1, viewedAt := p.2 } : ViewEntry)).drop 1 ∧
    (qFix.recordViews vs101).views = qFix.views + 101 :=
  viewLog_eviction qFix vs101 rfl
    (by
      simp only [vs101, List.map_map]
      exact List.nodup_range 101)
    (by simp [vs101])

end HForum
